import Mathlib

/-!
Verification of the transcription-orchestration workflow of `src/RA.py`
(Riksarkivets Handskriftstranskribering front-end).

The development embeds, as executable Lean definitions:

* the structured pipeline-configuration document built by
  `create_pipeline_yaml` and its serialization (`yaml.dump`) together with
  deserialization (`yaml.safe_load`), modelled as a verified round-tripping
  codec for the document values the app exchanges (PyYAML is an external
  library; we model its contract `safe_load (dump v) = v` by an executable
  serializer with a verified parser);
* the configuration layer of `main` (default pipeline file vs. the
  user-customized document written verbatim);
* the output-resolution logic of `main` (direct path lookup plus the
  `os.walk` diagnostic listing);
* the `MockTranscriber.transcribe` function of the generated mock module,
  including its filename hash, corpus selection and output path;
* `run_transcription` with its nested `try`/`except` structure over an
  explicit Python-exception model;
* `mock_run_pipeline`'s Export-destination lookup.
-/

namespace RA

/-- A structured configuration document value: the subset of YAML values the
application exchanges (strings, sequences, mappings with string keys).
Mirrors the Python dict/list/str values handled by `yaml.dump` /
`yaml.safe_load` in `src/RA.py`. -/
inductive Yaml where
  | str : String → Yaml
  | seq : List Yaml → Yaml
  | map : List (String × Yaml) → Yaml

/-- Escape the characters of a scalar for quoting: a backslash or a double
quote is preceded by a backslash. -/
def escapeChars : List Char → List Char
  | [] => []
  | c :: cs =>
    if c = '"' ∨ c = '\\' then '\\' :: c :: escapeChars cs
    else c :: escapeChars cs

/-- A quoted scalar: opening quote, escaped content, closing quote. -/
def quoteStr (s : String) : List Char :=
  '"' :: escapeChars s.data ++ ['"']

mutual

/-- Serialize a document value.  Models the external `yaml.dump` call in
`create_pipeline_yaml`: an executable injective rendering of the document to
text (scalars tagged `s`, sequences `l…e`, mappings `m…e`). -/
def dumpV : Yaml → List Char
  | .str s => 's' :: quoteStr s
  | .seq xs => 'l' :: dumpSeq xs
  | .map kvs => 'm' :: dumpMap kvs

/-- Serialize the items of a sequence, closed by `e`. -/
def dumpSeq : List Yaml → List Char
  | [] => ['e']
  | v :: vs => dumpV v ++ dumpSeq vs

/-- Serialize the entries of a mapping (quoted key, then value), closed by
`e`. -/
def dumpMap : List (String × Yaml) → List Char
  | [] => ['e']
  | (k, v) :: kvs => quoteStr k ++ dumpV v ++ dumpMap kvs

end

mutual

/-- Fuel bound for parsing a value: enough recursion depth for `parseV`. -/
def ysize : Yaml → Nat
  | .str _ => 0
  | .seq xs => lsize xs + 1
  | .map kvs => msize kvs + 1

/-- Fuel bound for parsing a serialized sequence body. -/
def lsize : List Yaml → Nat
  | [] => 0
  | v :: vs => ysize v + lsize vs + 1

/-- Fuel bound for parsing a serialized mapping body. -/
def msize : List (String × Yaml) → Nat
  | [] => 0
  | (_, v) :: kvs => ysize v + msize kvs + 1

end

/-- Parse a quoted scalar after the opening quote: returns the unescaped
content and the remaining input after the closing quote. -/
def parseQuoted : List Char → Option (List Char × List Char)
  | [] => none
  | c :: rest =>
    if c = '"' then some ([], rest)
    else if c = '\\' then
      match rest with
      | [] => none
      | d :: rest2 =>
        match parseQuoted rest2 with
        | none => none
        | some (s, r) => some (d :: s, r)
    else
      match parseQuoted rest with
      | none => none
      | some (s, r) => some (c :: s, r)

mutual

/-- Parse one document value (fuel-bounded). -/
def parseV : Nat → List Char → Option (Yaml × List Char)
  | 0, _ => none
  | _ + 1, [] => none
  | fuel + 1, c :: rest =>
    if c = 's' then
      match rest with
      | [] => none
      | q :: rest2 =>
        if q = '"' then
          match parseQuoted rest2 with
          | none => none
          | some (s, r) => some (.str ⟨s⟩, r)
        else none
    else if c = 'l' then
      match parseItems fuel rest with
      | none => none
      | some (xs, r) => some (.seq xs, r)
    else if c = 'm' then
      match parseEntries fuel rest with
      | none => none
      | some (kvs, r) => some (.map kvs, r)
    else none

/-- Parse the items of a serialized sequence up to the closing `e`. -/
def parseItems : Nat → List Char → Option (List Yaml × List Char)
  | 0, _ => none
  | _ + 1, [] => none
  | fuel + 1, c :: rest =>
    if c = 'e' then some ([], rest)
    else
      match parseV fuel (c :: rest) with
      | none => none
      | some (v, r) =>
        match parseItems fuel r with
        | none => none
        | some (vs, r2) => some (v :: vs, r2)

/-- Parse the entries of a serialized mapping up to the closing `e`. -/
def parseEntries : Nat → List Char → Option (List (String × Yaml) × List Char)
  | 0, _ => none
  | _ + 1, [] => none
  | fuel + 1, c :: rest =>
    if c = 'e' then some ([], rest)
    else if c = '"' then
      match parseQuoted rest with
      | none => none
      | some (k, r) =>
        match parseV fuel r with
        | none => none
        | some (v, r2) =>
          match parseEntries fuel r2 with
          | none => none
          | some (kvs, r3) => some ((⟨k⟩, v) :: kvs, r3)
    else none

end

/-- Model of the external `yaml.dump` call: render a document value to a
string. -/
def yamlDump (v : Yaml) : String := ⟨dumpV v⟩

/-- Model of the external `yaml.safe_load` call: parse a string back into a
document value; `none` models a YAML parse error. -/
def yamlLoad (s : String) : Option Yaml :=
  match parseV (s.data.length + 1) s.data with
  | some (v, []) => some v
  | _ => none

theorem parseQuoted_escape (s rest : List Char) :
    parseQuoted (escapeChars s ++ '"' :: rest) = some (s, rest) := by
  induction s with
  | nil =>
    rw [show escapeChars [] = [] from rfl, List.nil_append, parseQuoted.eq_def]
    simp
  | cons c cs ih =>
    by_cases h : c = '"' ∨ c = '\\'
    · simp only [escapeChars, if_pos h, List.cons_append]
      rw [parseQuoted.eq_def]
      simp [ih]
    · simp only [escapeChars, if_neg h]
      push_neg at h
      rw [List.cons_append, parseQuoted.eq_def]
      simp [h.1, h.2, ih]

theorem dumpV_head (v : Yaml) :
    ∃ cs, dumpV v = 's' :: cs ∨ dumpV v = 'l' :: cs ∨ dumpV v = 'm' :: cs := by
  cases v with
  | str s => exact ⟨quoteStr s, Or.inl (by simp [dumpV])⟩
  | seq xs => exact ⟨dumpSeq xs, Or.inr (Or.inl (by simp [dumpV]))⟩
  | map kvs => exact ⟨dumpMap kvs, Or.inr (Or.inr (by simp [dumpV]))⟩

theorem parse_dump (fuel : Nat) :
    (∀ v rest, ysize v < fuel → parseV fuel (dumpV v ++ rest) = some (v, rest))
    ∧ (∀ xs rest, lsize xs < fuel → parseItems fuel (dumpSeq xs ++ rest) = some (xs, rest))
    ∧ (∀ kvs rest, msize kvs < fuel →
        parseEntries fuel (dumpMap kvs ++ rest) = some (kvs, rest)) := by
  induction fuel with
  | zero =>
    refine ⟨fun v rest h => absurd h (by omega),
            fun xs rest h => absurd h (by omega),
            fun kvs rest h => absurd h (by omega)⟩
  | succ f ih =>
    refine ⟨?_, ?_, ?_⟩
    · intro v rest h
      cases v with
      | str s =>
        have heq : dumpV (Yaml.str s) ++ rest
            = 's' :: '"' :: (escapeChars s.data ++ '"' :: rest) := by
          simp [dumpV, quoteStr]
        rw [heq, parseV.eq_def]
        simp [parseQuoted_escape]
      | seq xs =>
        have heq : dumpV (Yaml.seq xs) ++ rest = 'l' :: (dumpSeq xs ++ rest) := by
          simp [dumpV]
        have hx : lsize xs < f := by simp [ysize] at h; omega
        rw [heq, parseV.eq_def]
        simp [ih.2.1 xs rest hx]
      | map kvs =>
        have heq : dumpV (Yaml.map kvs) ++ rest = 'm' :: (dumpMap kvs ++ rest) := by
          simp [dumpV]
        have hx : msize kvs < f := by simp [ysize] at h; omega
        rw [heq, parseV.eq_def]
        simp [ih.2.2 kvs rest hx]
    · intro xs rest h
      cases xs with
      | nil =>
        have heq : dumpSeq ([] : List Yaml) ++ rest = 'e' :: rest := by simp [dumpSeq]
        rw [heq, parseItems.eq_def]
        simp
      | cons v vs =>
        obtain ⟨cs, hc⟩ := dumpV_head v
        have hsz : ysize v < f ∧ lsize vs < f := by simp [lsize] at h; omega
        have hrw : dumpSeq (v :: vs) ++ rest = dumpV v ++ (dumpSeq vs ++ rest) := by
          simp [dumpSeq]
        have hv := ih.1 v (dumpSeq vs ++ rest) hsz.1
        have hvs := ih.2.1 vs rest hsz.2
        rcases hc with hc | hc | hc <;>
          · rw [hrw, hc, List.cons_append, parseItems.eq_def]
            rw [hc, List.cons_append] at hv
            simp [hv, hvs]
    · intro kvs rest h
      cases kvs with
      | nil =>
        have heq : dumpMap ([] : List (String × Yaml)) ++ rest = 'e' :: rest := by
          simp [dumpMap]
        rw [heq, parseEntries.eq_def]
        simp
      | cons kv kvs' =>
        obtain ⟨k, v⟩ := kv
        have hsz : ysize v < f ∧ msize kvs' < f := by simp [msize] at h; omega
        have hrw : dumpMap ((k, v) :: kvs') ++ rest
            = '"' :: (escapeChars k.data ++ '"' :: (dumpV v ++ (dumpMap kvs' ++ rest))) := by
          simp [dumpMap, quoteStr]
        have hv := ih.1 v (dumpMap kvs' ++ rest) hsz.1
        have hkvs := ih.2.2 kvs' rest hsz.2
        rw [hrw, parseEntries.eq_def]
        simp [parseQuoted_escape, hv, hkvs]

theorem size_lt_dump_length (n : Nat) :
    (∀ v, ysize v < n → ysize v < (dumpV v).length)
    ∧ (∀ xs, lsize xs < n → lsize xs < (dumpSeq xs).length)
    ∧ (∀ kvs, msize kvs < n → msize kvs < (dumpMap kvs).length) := by
  induction n with
  | zero =>
    refine ⟨fun v h => absurd h (by omega),
            fun xs h => absurd h (by omega),
            fun kvs h => absurd h (by omega)⟩
  | succ m ih =>
    refine ⟨?_, ?_, ?_⟩
    · intro v h
      cases v with
      | str s => simp [ysize, dumpV, quoteStr]
      | seq xs =>
        have hx : lsize xs < m := by simp [ysize] at h; omega
        have := ih.2.1 xs hx
        simp [ysize, dumpV]; omega
      | map kvs =>
        have hx : msize kvs < m := by simp [ysize] at h; omega
        have := ih.2.2 kvs hx
        simp [ysize, dumpV]; omega
    · intro xs h
      cases xs with
      | nil => simp [lsize, dumpSeq]
      | cons v vs =>
        have hsz : ysize v < m ∧ lsize vs < m := by simp [lsize] at h; omega
        have h1 := ih.1 v hsz.1
        have h2 := ih.2.1 vs hsz.2
        simp [lsize, dumpSeq]; omega
    · intro kvs h
      cases kvs with
      | nil => simp [msize, dumpMap]
      | cons kv kvs' =>
        obtain ⟨k, v⟩ := kv
        have hsz : ysize v < m ∧ msize kvs' < m := by simp [msize] at h; omega
        have h1 := ih.1 v hsz.1
        have h2 := ih.2.2 kvs' hsz.2
        simp [msize, dumpMap, quoteStr]; omega

/-- The round-trip contract of the external YAML library as modelled here:
loading a dumped document recovers the document. -/
theorem yamlLoad_yamlDump (v : Yaml) : yamlLoad (yamlDump v) = some v := by
  have hlt : ysize v < (dumpV v).length :=
    (size_lt_dump_length (ysize v + 1)).1 v (by omega)
  have h := (parse_dump ((dumpV v).length + 1)).1 v [] (by omega)
  rw [List.append_nil] at h
  unfold yamlLoad yamlDump
  simp only [String.data]
  rw [h]

/-- The fixed pipeline configuration dictionary built by
`create_pipeline_yaml` in `src/RA.py` (lines 59-90), with the Export step's
`dest` bound to the given output directory. -/
def pipeline_config (output_dir : String) : Yaml :=
  .map [("steps", .seq [
    .map [("step", .str "Segmentation"),
          ("settings", .map [("model", .str "yolo"),
                             ("model_settings",
                              .map [("model",
                                     .str "Riksarkivet/yolov9-lines-within-regions-1")])])],
    .map [("step", .str "TextRecognition"),
          ("settings", .map [("model", .str "TrOCR"),
                             ("model_settings",
                              .map [("model",
                                     .str "Riksarkivet/trocr-base-handwritten-hist-swe-2")])])],
    .map [("step", .str "OrderLines")],
    .map [("step", .str "Export"),
          ("settings", .map [("format", .str "txt"),
                             ("dest", .str output_dir)])]])]

/-- `create_pipeline_yaml` (src/RA.py lines 57-93): builds the configuration
dictionary and returns `yaml.dump` of it as a string. -/
def create_pipeline_yaml (output_dir : String) : String :=
  yamlDump (pipeline_config output_dir)

/-- Python `dict.get(k)` on a mapping value: the value at key `k`, `none`
when the key is absent or the value is not a mapping.  (Documents handled by
the app have unique keys, so first match suffices.) -/
def yget (k : String) : Yaml → Option Yaml
  | .map kvs =>
    match kvs.find? (fun kv => kv.1 == k) with
    | some kv => some kv.2
    | none => none
  | _ => none

/-- Python `"k" in step` on a mapping value. -/
def hasKey (k : String) : Yaml → Bool
  | .map kvs => kvs.any (fun kv => kv.1 == k)
  | _ => false

/-- `pipeline_config.get("steps", [])` followed by iteration, as in
`mock_run_pipeline` (src/RA.py line 221): the list of step entries, empty
when the key is missing or not a sequence. -/
def stepsOf (doc : Yaml) : List Yaml :=
  match yget "steps" doc with
  | some (.seq xs) => xs
  | _ => []

/-- `step.get("step")` as a string, for comparisons like
`step.get("step") == "Export"`. -/
def stepNameOf (step : Yaml) : Option String :=
  match yget "step" step with
  | some (.str s) => some s
  | _ => none

/-- The destination lookup of `mock_run_pipeline` (src/RA.py lines 220-224):
scan the steps in order for the first whose `step` is `"Export"` and that has
a `settings` key, and return `step["settings"].get("dest")`; `none` when no
such step exists (Python leaves `output_dir = None`). -/
def findExportDest (doc : Yaml) : Option Yaml :=
  go (stepsOf doc)
where
  go : List Yaml → Option Yaml
    | [] => none
    | step :: rest =>
      if (stepNameOf step == some "Export") && hasKey "settings" step then
        match yget "settings" step with
        | some settings => yget "dest" settings
        | none => none
      else go rest

/-- The model identifier of a step:
`step["settings"]["model_settings"]["model"]`. -/
def stepModelOf (step : Yaml) : Option String :=
  match (yget "settings" step).bind (yget "model_settings") |>.bind (yget "model") with
  | some (.str s) => some s
  | _ => none

/-- The top-level keys of a document. -/
def topKeys : Yaml → List String
  | .map kvs => kvs.map (fun kv => kv.1)
  | _ => []

/-- The configuration input mode of the sidebar in `main`
(src/RA.py lines 270-303): either the generated default pipeline file is
kept, or the user pastes a custom document and clicks update. -/
inductive ConfigMode where
  | default
  | custom (document : String)

/-- The UI signal emitted by the configuration layer:
`st.success("Konfigurationen har uppdaterats!")` on a custom update, nothing
otherwise.  (No warning is ever emitted by this layer.) -/
inductive ConfigSignal where
  | silent
  | successNote
  deriving DecidableEq

/-- The contents of `pipeline.yaml` after the configuration layer of `main`
ran (src/RA.py lines 270-303), together with the UI signal: in default mode
the file holds `create_pipeline_yaml(output_dir)`; when the user updates a
custom document it is written verbatim, with no parsing or validation, and a
success note is shown. -/
def buildConfig (output_dir : String) : ConfigMode → String × ConfigSignal
  | .default => (create_pipeline_yaml output_dir, .silent)
  | .custom doc => (doc, .successNote)

/-- The files below the scratch output directory, keyed by relative path
(one list entry per path component), with their text contents. -/
abbrev FS := List (List String × String)

/-- `os.path.exists` + `open().read()` on a relative path below the output
directory. -/
def fsLookup (p : List String) (fs : FS) : Option String :=
  (fs.find? (fun e => e.1 == p)).map (fun e => e.2)

/-- The `os.walk` diagnostic listing of `main` (src/RA.py lines 396-399):
every file path in the whole subtree. -/
def walkFiles (fs : FS) : List (List String) :=
  fs.map (fun e => e.1)

/-- Result of locating the transcription output. -/
inductive ResolveOutcome where
  | found (text : String)
  | missing (listing : List (List String))
  deriving DecidableEq

/-- Output resolution in `main` (src/RA.py lines 369-405): the app builds
`os.path.join(output_dir, base_name + ".txt")`, checks `os.path.exists` at
exactly that path, and reads it; only on failure does it walk the subtree,
and only to display a listing. -/
def resolveOutput (imageId : String) (fs : FS) : ResolveOutcome :=
  match fsLookup [imageId ++ ".txt"] fs with
  | some t => .found t
  | none => .missing (walkFiles fs)

/-- Whether a file named `<imageId>.txt` with the given content exists
anywhere in the subtree (at any nesting depth). -/
def fileInSubtree (imageId content : String) (fs : FS) : Bool :=
  fs.any (fun e => (e.1.getLast? == some (imageId ++ ".txt")) && (e.2 == content))

/-- The two canned transcription texts of the generated mock module
(src/RA.py lines 154-188). -/
def demo_texts : List String :=
  ["Monmouth den 29 1882.\n\nPlatskade Syster emot Svåger\nHå godt är min önskan\nJag får återigen göra försöket\natt sända eder bref, jag har\nförut skrifvitt men ej erhallett\nnågott wår från eder var. varför\njag tager det för troligt att\nbrefven icke har gått fram.\njag har erinu den stora gåfvan\natt hafva en god helsa intill\nskrifvande dag, och önskligt\nvoro att dessa rader trefar\neder vid samma goda gofva.\noch jag får önska eder lycka\npå det nya åratt samt god\nfortsättning på detsamma.",
   "Stockholm den 15 juli 1876\n            \nKära Syster!\nHjärtligt tack för Ditt bref\nsom jag mottog i går. Det\ngläder mig mycket att höra\natt Du och familjen mår väl.\nHär i Stockholm är vädret\nvackert men mycket varmt\ndessa dagar. Jag hoppas\nkunna besöka Eder i Augusti\nom allt går som planerat.\nHälsa alla från mig!\nDin tillgifne broder,\nCarl"]

/-- POSIX `os.path.basename`: the part after the last `/`. -/
def os_path_basename (p : String) : String :=
  ⟨(p.data.reverse.takeWhile (fun c => c ≠ '/')).reverse⟩

/-- The root part of CPython's `os.path.splitext` on a bare file name: cut at
the last dot, except when the name has no dot or only leading dots (then the
extension is empty). -/
def splitextRoot (cs : List Char) : List Char :=
  let rev := cs.reverse
  let extRev := rev.takeWhile (fun c => c ≠ '.')
  if extRev.length = rev.length then cs
  else
    let rootRev := rev.drop (extRev.length + 1)
    if rootRev.any (fun c => c ≠ '.') then rootRev.reverse else cs

/-- POSIX `os.path.join` for two components. -/
def os_path_join (a b : String) : String :=
  if b.startsWith "/" then b
  else if a = "" ∨ a.endsWith "/" then a ++ b
  else a ++ "/" ++ b

/-- What one `MockTranscriber.transcribe` call produces: the output file it
writes (path and contents) and the simulated latency it slept. -/
structure TranscribeResult where
  output_path : String
  written : String
  elapsed : Nat
  deriving DecidableEq

/-- The corpus index selected by `MockTranscriber.transcribe`
(src/RA.py lines 195-197): the sum of the character codes of
`os.path.basename(image_path)` — the full file name, extension included —
reduced modulo the corpus size. -/
def mockTextIndex (image_path : String) : Nat :=
  (((os_path_basename image_path).data.map Char.toNat).sum) % demo_texts.length

/-- `MockTranscriber.transcribe` (src/RA.py lines 190-212): sleep a random
time (`2 + random.random() * 3`, modelled by the `randomDelay` argument),
select `demo_texts[hash % len]` from the file name, and write it to
`os.path.join(output_dir, base_name + ".txt")` where `base_name` is the
upload's name without its extension. -/
def MockTranscriber.transcribe (randomDelay : Nat) (image_path output_dir : String) :
    TranscribeResult :=
  let transcribed_text := demo_texts.getD (mockTextIndex image_path) ""
  let base_name := ⟨splitextRoot (os_path_basename image_path).data⟩
  let output_path := os_path_join output_dir (base_name ++ ".txt")
  ⟨output_path, transcribed_text, 2 + randomDelay⟩

/-- The Python exceptions relevant to `run_transcription`
(src/RA.py lines 96-138): the two exception classes caught by the inner
handler, `subprocess.CalledProcessError` (carrying the captured streams), and
any other exception (carrying `str(e)` and its traceback). -/
inductive PyExc where
  | importError (msg tb : String)
  | attributeError (msg tb : String)
  | calledProcessError (stdout stderr : String)
  | other (msg tb : String)
  deriving DecidableEq

/-- How the native (in-process) invocation attempt went: the
`import htrflow` / `Pipeline(config).run([image])` block either returns or
raises some exception. -/
inductive NativeOutcome where
  | ok
  | raises (e : PyExc)

/-- How the subprocess fallback went: `subprocess.run(..., check=True)`
either completes with an exit code and captured streams, or itself raises
(e.g. an OS error while spawning). -/
inductive SubprocOutcome where
  | completed (returncode : Nat) (stdout stderr : String)
  | raises (e : PyExc)

/-- `run_transcription` (src/RA.py lines 96-138), transcribing its nested
`try`/`except` structure: the native attempt; `ImportError`/`AttributeError`
trigger the subprocess fallback (where `check=True` raises
`CalledProcessError` on a non-zero exit); the outer handlers turn
`CalledProcessError` into `(False, e.stdout, e.stderr)` and any other
exception into `(False, "", str(e) + "\n\n" + traceback)`.  The result is
`Except.error` only if an exception would escape to the caller. -/
def run_transcription (native : NativeOutcome) (sub : SubprocOutcome) :
    Except PyExc (Bool × String × String) :=
  let attempt : Except PyExc (Bool × String × String) :=
    match native with
    | .ok => .ok (true, "Transkribering slutförd med Python API", "")
    | .raises e =>
      match e with
      | .importError _ _ | .attributeError _ _ =>
        match sub with
        | .completed c out err =>
          if c = 0 then .ok (true, out, err)
          else .error (.calledProcessError out err)
        | .raises e2 => .error e2
      | e => .error e
  match attempt with
  | .ok r => .ok r
  | .error (.calledProcessError out err) => .ok (false, out, err)
  | .error (.importError m t) => .ok (false, "", m ++ "\n\n" ++ t)
  | .error (.attributeError m t) => .ok (false, "", m ++ "\n\n" ++ t)
  | .error (.other m t) => .ok (false, "", m ++ "\n\n" ++ t)

/-- The outcome the subprocess fallback path alone would produce, after the
outer handlers: success on exit 0, the captured streams on a non-zero exit,
a formatted diagnostic when spawning itself raised. -/
def subprocess_fallback : SubprocOutcome → Bool × String × String
  | .completed c out err => if c = 0 then (true, out, err) else (false, out, err)
  | .raises (.calledProcessError out err) => (false, out, err)
  | .raises (.importError m t) => (false, "", m ++ "\n\n" ++ t)
  | .raises (.attributeError m t) => (false, "", m ++ "\n\n" ++ t)
  | .raises (.other m t) => (false, "", m ++ "\n\n" ++ t)

/-- Per-image outcome of a batch run. -/
inductive BatchOutcome where
  | success (text : String)
  | failure (error : String)
  deriving DecidableEq

/-- Whether a batch outcome is a success. -/
def BatchOutcome.isSuccess : BatchOutcome → Bool
  | .success _ => true
  | .failure _ => false

/-- Modelled from the spec: `BatchRunner.runBatch` (spec §4.5) — no batch
runner exists in `src/RA.py`; the spec describes sequential processing of the
images in input order, recording one outcome per image (invocation failure,
or output resolution of the invoked image) and never aborting on a failure. -/
def runBatch (invoke : String → Bool) (resolve : String → Option String) :
    List String → List (String × BatchOutcome)
  | [] => []
  | img :: rest =>
    let outcome :=
      if invoke img then
        match resolve img with
        | some t => BatchOutcome.success t
        | none => BatchOutcome.failure "output not found"
      else BatchOutcome.failure "invocation failed"
    (img, outcome) :: runBatch invoke resolve rest

/-- Modelled from the spec: the combined multi-section report (spec §4.5) —
one labeled section per successful image, failed images omitted. -/
def combinedReport (results : List (String × BatchOutcome)) : List String :=
  results.filterMap (fun r =>
    match r.2 with
    | .success t => some ("### " ++ r.1 ++ "\n" ++ t)
    | .failure _ => none)

/-- C10: for every output directory `d`, parsing the YAML string produced by
`create_pipeline_yaml d` recovers the configuration document; its `steps`
list ends with an Export step whose `settings.dest` equals `d`; and the mock
pipeline runner's destination lookup over the parsed document returns `d`. -/
theorem create_pipeline_yaml_roundtrip (d : String) :
    yamlLoad (create_pipeline_yaml d) = some (pipeline_config d)
    ∧ ((stepsOf (pipeline_config d)).getLast?).map stepNameOf = some (some "Export")
    ∧ ((stepsOf (pipeline_config d)).getLast?).bind
        (fun step => (yget "settings" step).bind (yget "dest")) = some (Yaml.str d)
    ∧ (yamlLoad (create_pipeline_yaml d)).bind findExportDest = some (Yaml.str d) := by
  have h : yamlLoad (create_pipeline_yaml d) = some (pipeline_config d) :=
    yamlLoad_yamlDump (pipeline_config d)
  exact ⟨h, rfl, rfl, by rw [h]; rfl⟩

/-- C1 counterexample: in customized mode the user's document is written
verbatim, so a pipeline whose Export `dest` is `/elsewhere` is stored as-is
while the scratch output directory is `/scratch/outputs`; at invocation time
the destination lookup over the stored pipeline yields `/elsewhere`, not the
workspace's output directory. -/
theorem export_dest_not_rewritten_for_custom :
    (yamlLoad ((buildConfig "/scratch/outputs"
        (ConfigMode.custom (create_pipeline_yaml "/elsewhere"))).1)).bind findExportDest
      = some (Yaml.str "/elsewhere")
    ∧ "/elsewhere" ≠ "/scratch/outputs" := by
  constructor
  · show (yamlLoad (yamlDump (pipeline_config "/elsewhere"))).bind findExportDest = _
    rw [yamlLoad_yamlDump]
    rfl
  · decide

/-- C1 (amended): only in default mode does the stored pipeline's Export
`dest` equal the scratch workspace's output directory; a customized document
is stored verbatim, with no rewriting of its `dest`. -/
theorem export_dest_by_mode (output_dir : String) :
    (yamlLoad ((buildConfig output_dir ConfigMode.default).1)).bind findExportDest
      = some (Yaml.str output_dir)
    ∧ ∀ doc, (buildConfig output_dir (ConfigMode.custom doc)).1 = doc := by
  constructor
  · show (yamlLoad (yamlDump (pipeline_config output_dir))).bind findExportDest = _
    rw [yamlLoad_yamlDump]
    rfl
  · intro doc
    rfl

/-- C7 counterexample: a syntactically invalid custom document is stored
verbatim with a success note — the configuration layer does not substitute
the default spec and does not warn. -/
theorem invalid_config_stored_verbatim :
    yamlLoad "not-a-config" = none
    ∧ (buildConfig "/tmp/outputs" (ConfigMode.custom "not-a-config")).1 = "not-a-config"
    ∧ (buildConfig "/tmp/outputs" (ConfigMode.custom "not-a-config")).2
        = ConfigSignal.successNote
    ∧ (buildConfig "/tmp/outputs" (ConfigMode.custom "not-a-config")).1
        ≠ (buildConfig "/tmp/outputs" ConfigMode.default).1 := by
  refine ⟨rfl, rfl, rfl, ?_⟩
  intro h
  have hnone : yamlLoad "not-a-config" = none := rfl
  rw [show (buildConfig "/tmp/outputs" (ConfigMode.custom "not-a-config")).1
        = "not-a-config" from rfl,
      show (buildConfig "/tmp/outputs" ConfigMode.default).1
        = yamlDump (pipeline_config "/tmp/outputs") from rfl] at h
  rw [h, yamlLoad_yamlDump] at hnone
  exact Option.noConfusion hnone

/-- C7 (amended): for every syntactically invalid user document, the
configuration layer stores the document verbatim and signals success; it
neither falls back to the default spec nor warns (the workflow still
proceeds, with the invalid file in place). -/
theorem custom_config_no_fallback (output_dir doc : String)
    (_invalid : yamlLoad doc = none) :
    (buildConfig output_dir (ConfigMode.custom doc)).1 = doc
    ∧ (buildConfig output_dir (ConfigMode.custom doc)).2 = ConfigSignal.successNote :=
  ⟨rfl, rfl⟩

/-- C7 witness: the amended theorem applied to a concrete invalid document. -/
theorem custom_config_no_fallback_witness :
    yamlLoad "not-a-config" = none
    ∧ (buildConfig "/tmp/outputs" (ConfigMode.custom "not-a-config")).1 = "not-a-config"
    ∧ (buildConfig "/tmp/outputs" (ConfigMode.custom "not-a-config")).2
        = ConfigSignal.successNote :=
  ⟨rfl, (custom_config_no_fallback "/tmp/outputs" "not-a-config" rfl).1,
    (custom_config_no_fallback "/tmp/outputs" "not-a-config" rfl).2⟩

/-- C9: the default pipeline configuration has a single top-level `steps`
key holding exactly the four steps Segmentation, TextRecognition,
OrderLines, Export in that order; the first two carry the fixed model
identifiers, `OrderLines` has no `settings`, and each entry carries a `step`
name. -/
theorem default_pipeline_shape (d : String) :
    topKeys (pipeline_config d) = ["steps"]
    ∧ (stepsOf (pipeline_config d)).map stepNameOf
        = [some "Segmentation", some "TextRecognition", some "OrderLines", some "Export"]
    ∧ (stepsOf (pipeline_config d)).map (hasKey "settings") = [true, true, false, true]
    ∧ (stepsOf (pipeline_config d)).map stepModelOf
        = [some "Riksarkivet/yolov9-lines-within-regions-1",
           some "Riksarkivet/trocr-base-handwritten-hist-swe-2", none, none] :=
  ⟨rfl, rfl, rfl, rfl⟩

/-- C2 counterexample: a file `img.txt` with content `hello` nested in a
subdirectory of the output root is not found — resolution fails (the nested
file shows up only in the diagnostic listing). -/
theorem nested_output_not_found :
    fileInSubtree "img" "hello" [(["sub", "img.txt"], "hello")] = true
    ∧ resolveOutput "img" [(["sub", "img.txt"], "hello")]
        = ResolveOutcome.missing [["sub", "img.txt"]]
    ∧ resolveOutput "img" [(["sub", "img.txt"], "hello")]
        ≠ ResolveOutcome.found "hello" :=
  ⟨rfl, rfl, by decide⟩

/-- C2 (amended): resolution looks only at the top level of the output root:
if `<id>.txt` exists there with content C it is returned; otherwise
resolution fails and reports the recursive listing of the whole subtree,
even when a matching file exists deeper in the tree. -/
theorem resolve_top_level_only (id C : String) (fs : FS) :
    (fsLookup [id ++ ".txt"] fs = some C → resolveOutput id fs = .found C)
    ∧ (fsLookup [id ++ ".txt"] fs = none →
        resolveOutput id fs = .missing (walkFiles fs)) := by
  constructor
  · intro h
    unfold resolveOutput
    rw [h]
  · intro h
    unfold resolveOutput
    rw [h]

/-- C2 witness: the amended theorem applied to a concrete top-level file. -/
theorem resolve_top_level_only_witness :
    resolveOutput "img" [(["img.txt"], "hello")] = .found "hello" :=
  (resolve_top_level_only "img" "hello" [(["img.txt"], "hello")]).1 rfl

/-- C3: the mock transcriber is deterministic in the image file name — two
invocations with the same file name write the same output file with
byte-identical text, whatever the simulated random delays were. -/
theorem mock_transcriber_deterministic (r1 r2 : Nat) (image_path output_dir : String) :
    (MockTranscriber.transcribe r1 image_path output_dir).written
      = (MockTranscriber.transcribe r2 image_path output_dir).written
    ∧ (MockTranscriber.transcribe r1 image_path output_dir).output_path
      = (MockTranscriber.transcribe r2 image_path output_dir).output_path :=
  ⟨rfl, rfl⟩

/-- C4 counterexample: the code hashes the full file name, so for
`letter1.png` the selected corpus index is 0, while the claim's rule
(character codes of `letter1`, the base name without extension, modulo 2)
gives 1. -/
theorem letter1_index_mismatch :
    mockTextIndex "letter1.png" = 0
    ∧ ("letter1".data.map Char.toNat).sum % 2 = 1
    ∧ mockTextIndex "letter1.png" ≠ ("letter1".data.map Char.toNat).sum % 2 :=
  ⟨rfl, rfl, by decide⟩

/-- C4 (amended): the selected index is the sum of the character codes of
the full file name `letter1.png` (extension included) modulo the corpus
size, which is 0; the selected text (the first corpus entry) is written to
`<outputDir>/letter1.txt`. -/
theorem letter1_selects_first_text (r : Nat) (dir : String) :
    mockTextIndex "letter1.png"
      = (("letter1.png").data.map Char.toNat).sum % demo_texts.length
    ∧ mockTextIndex "letter1.png" = 0
    ∧ (MockTranscriber.transcribe r "letter1.png" dir).written = demo_texts.getD 0 ""
    ∧ (MockTranscriber.transcribe r "letter1.png" dir).output_path
      = os_path_join dir ("letter1" ++ ".txt") :=
  ⟨rfl, rfl, rfl, rfl⟩

/-- C5: `run_transcription` never lets an exception escape to its caller; a
non-zero exit of the subprocess fallback yields `succeeded = false` with the
process's captured streams; any other uncaught failure (in the native
attempt or while spawning the fallback) yields `succeeded = false` with the
formatted diagnostic in the stderr field. -/
theorem run_transcription_total (native : NativeOutcome) (sub : SubprocOutcome) :
    (∃ r, run_transcription native sub = .ok r)
    ∧ (∀ m t c out err,
        (native = .raises (.importError m t) ∨ native = .raises (.attributeError m t)) →
        sub = .completed c out err → c ≠ 0 →
        run_transcription native sub = .ok (false, out, err))
    ∧ (∀ m t, native = .raises (.other m t) →
        run_transcription native sub = .ok (false, "", m ++ "\n\n" ++ t))
    ∧ (∀ m t m2 t2,
        (native = .raises (.importError m t) ∨ native = .raises (.attributeError m t)) →
        sub = .raises (.other m2 t2) →
        run_transcription native sub = .ok (false, "", m2 ++ "\n\n" ++ t2)) := by
  refine ⟨?_, ?_, ?_, ?_⟩
  · cases native with
    | ok => exact ⟨(true, "Transkribering slutförd med Python API", ""), rfl⟩
    | raises e =>
      cases e with
      | importError m t =>
        cases sub with
        | completed c out err =>
          by_cases hc : c = 0
          · exact ⟨(true, out, err), by simp [run_transcription, hc]⟩
          · exact ⟨(false, out, err), by simp [run_transcription, hc]⟩
        | raises e2 =>
          cases e2 with
          | importError m2 t2 => exact ⟨(false, "", m2 ++ "\n\n" ++ t2), rfl⟩
          | attributeError m2 t2 => exact ⟨(false, "", m2 ++ "\n\n" ++ t2), rfl⟩
          | calledProcessError out err => exact ⟨(false, out, err), rfl⟩
          | other m2 t2 => exact ⟨(false, "", m2 ++ "\n\n" ++ t2), rfl⟩
      | attributeError m t =>
        cases sub with
        | completed c out err =>
          by_cases hc : c = 0
          · exact ⟨(true, out, err), by simp [run_transcription, hc]⟩
          · exact ⟨(false, out, err), by simp [run_transcription, hc]⟩
        | raises e2 =>
          cases e2 with
          | importError m2 t2 => exact ⟨(false, "", m2 ++ "\n\n" ++ t2), rfl⟩
          | attributeError m2 t2 => exact ⟨(false, "", m2 ++ "\n\n" ++ t2), rfl⟩
          | calledProcessError out err => exact ⟨(false, out, err), rfl⟩
          | other m2 t2 => exact ⟨(false, "", m2 ++ "\n\n" ++ t2), rfl⟩
      | calledProcessError out err => exact ⟨(false, out, err), rfl⟩
      | other m t => exact ⟨(false, "", m ++ "\n\n" ++ t), rfl⟩
  · intro m t c out err hn hs hc
    rcases hn with hn | hn <;> subst hn <;> subst hs <;>
      simp [run_transcription, hc]
  · intro m t hn
    subst hn
    rfl
  · intro m t m2 t2 hn hs
    rcases hn with hn | hn <;> subst hn <;> subst hs <;> rfl

/-- C5 witness: a non-zero subprocess exit after an import failure returns
the captured streams with `succeeded = false`. -/
theorem run_transcription_total_witness :
    run_transcription (.raises (.importError "No module named htrflow" "tb"))
        (.completed 1 "captured out" "captured err")
      = .ok (false, "captured out", "captured err") :=
  (run_transcription_total (.raises (.importError "No module named htrflow" "tb"))
      (.completed 1 "captured out" "captured err")).2.1
    "No module named htrflow" "tb" 1 "captured out" "captured err"
    (Or.inl rfl) rfl (by decide)

/-- C6: an `ImportError` or `AttributeError` in the native attempt is caught
and never surfaced: the final result is exactly the subprocess fallback's
outcome, independent of the native failure's message. -/
theorem native_locate_failure_falls_back (m t m2 t2 : String) (sub : SubprocOutcome) :
    run_transcription (.raises (.importError m t)) sub = .ok (subprocess_fallback sub)
    ∧ run_transcription (.raises (.attributeError m2 t2)) sub
        = .ok (subprocess_fallback sub) := by
  constructor <;>
    · cases sub with
      | completed c out err =>
        by_cases hc : c = 0 <;> simp [run_transcription, subprocess_fallback, hc]
      | raises e2 => cases e2 <;> simp [run_transcription, subprocess_fallback]
/-- A successful outcome counts as a success. -/
@[simp] theorem BatchOutcome.isSuccess_success (t : String) :
    (BatchOutcome.success t).isSuccess = true := rfl

/-- A failure outcome does not count as a success. -/
@[simp] theorem BatchOutcome.isSuccess_failure (e : String) :
    (BatchOutcome.failure e).isSuccess = false := rfl

theorem runBatch_cons_success (invoke : String → Bool) (resolve : String → Option String)
    (img t : String) (rest : List String)
    (hi : invoke img = true) (ht : resolve img = some t) :
    runBatch invoke resolve (img :: rest)
      = (img, BatchOutcome.success t) :: runBatch invoke resolve rest := by
  simp [runBatch, hi, ht]

theorem runBatch_cons_failure (invoke : String → Bool) (resolve : String → Option String)
    (img : String) (rest : List String) (hi : invoke img = false) :
    runBatch invoke resolve (img :: rest)
      = (img, BatchOutcome.failure "invocation failed") :: runBatch invoke resolve rest := by
  simp [runBatch, hi]

/-- The empty batch has an empty report. -/
@[simp] theorem combinedReport_nil : combinedReport [] = [] := rfl

/-- A success contributes one labeled section to the report. -/
@[simp] theorem combinedReport_cons_success (img t : String)
    (results : List (String × BatchOutcome)) :
    combinedReport ((img, BatchOutcome.success t) :: results)
      = ("### " ++ img ++ "\n" ++ t) :: combinedReport results := by
  simp [combinedReport]

/-- A failure contributes nothing to the report. -/
@[simp] theorem combinedReport_cons_failure (img e : String)
    (results : List (String × BatchOutcome)) :
    combinedReport ((img, BatchOutcome.failure e) :: results) = combinedReport results := by
  simp [combinedReport]

/-- Helper: a batch whose images all invoke and all resolve produces only
successes, in input order, with one report section per image. -/
theorem runBatch_all_success (invoke : String → Bool) (resolve : String → Option String)
    (images : List String)
    (hinv : ∀ img ∈ images, invoke img = true ∧ (resolve img).isSome = true) :
    (runBatch invoke resolve images).length = images.length
    ∧ (runBatch invoke resolve images).map Prod.fst = images
    ∧ (runBatch invoke resolve images).countP (fun r => !(r.2.isSuccess)) = 0
    ∧ (runBatch invoke resolve images).countP (fun r => r.2.isSuccess) = images.length
    ∧ (combinedReport (runBatch invoke resolve images)).length = images.length := by
  induction images with
  | nil => simp [runBatch]
  | cons img rest ih =>
    obtain ⟨hi, hr⟩ := hinv img (by simp)
    obtain ⟨t, ht⟩ := Option.isSome_iff_exists.mp hr
    have ihr := ih (fun x hx => hinv x (by simp [hx]))
    rw [runBatch_cons_success invoke resolve img t rest hi ht]
    refine ⟨by simp [ihr.1], by simp [ihr.2.1], ?_, ?_, ?_⟩
    · rw [List.countP_cons]
      simp [ihr.2.2.1]
    · rw [List.countP_cons]
      simp [ihr.2.2.2.1]
    · simp [ihr.2.2.2.2]

/-- C8 (spec-modelled): a batch of N images in which exactly the image at
position k fails invocation (and every other image invokes and resolves)
yields a result mapping of size N keyed by the images in input order, with
the single failure at position k, N−1 successes, and N−1 report sections. -/
theorem runBatch_single_failure (invoke : String → Bool)
    (resolve : String → Option String) (images : List String) (k : Nat)
    (hk : k < images.length)
    (hfail : ∀ i, (hi : i < images.length) → (invoke images[i] = false ↔ i = k))
    (hres : ∀ i, (hi : i < images.length) → i ≠ k → (resolve images[i]).isSome = true) :
    (runBatch invoke resolve images).length = images.length
    ∧ (runBatch invoke resolve images).map Prod.fst = images
    ∧ (runBatch invoke resolve images)[k]?
        = some (images[k], BatchOutcome.failure "invocation failed")
    ∧ (runBatch invoke resolve images).countP (fun r => !(r.2.isSuccess)) = 1
    ∧ (runBatch invoke resolve images).countP (fun r => r.2.isSuccess)
        = images.length - 1
    ∧ (combinedReport (runBatch invoke resolve images)).length = images.length - 1 := by
  induction images generalizing k with
  | nil => exact absurd hk (by simp)
  | cons img rest ih =>
    cases k with
    | zero =>
      have h0 : invoke img = false := by
        have := (hfail 0 (by simp)).mpr rfl
        simpa using this
      have hall : ∀ x ∈ rest, invoke x = true ∧ (resolve x).isSome = true := by
        intro x hx
        obtain ⟨i, hi, hget⟩ := List.mem_iff_getElem.mp hx
        have h1 : i + 1 < (img :: rest).length := by simp; omega
        have hgi : (img :: rest)[i + 1] = x := by
          rw [List.getElem_cons_succ]
          exact hget
        constructor
        · cases hx2 : invoke x with
          | false =>
            have := (hfail (i + 1) h1).mp (by rw [hgi]; exact hx2)
            omega
          | true => rfl
        · have := hres (i + 1) h1 (by omega)
          rwa [hgi] at this
      have hr := runBatch_all_success invoke resolve rest hall
      rw [runBatch_cons_failure invoke resolve img rest h0]
      refine ⟨by simp [hr.1], by simp [hr.2.1], by simp, ?_, ?_, ?_⟩
      · rw [List.countP_cons]
        simp [hr.2.2.1]
      · rw [List.countP_cons]
        simp [hr.2.2.2.1]
      · simp [hr.2.2.2.2]
    | succ j =>
      have hk' : j < rest.length := by
        simp only [List.length_cons] at hk
        omega
      have h0 : invoke img = true := by
        cases hx2 : invoke img with
        | false =>
          have := (hfail 0 (by simp)).mp (by simpa using hx2)
          omega
        | true => rfl
      have hres0 : (resolve img).isSome = true := by
        have := hres 0 (by simp) (by omega)
        simpa using this
      obtain ⟨t, ht⟩ := Option.isSome_iff_exists.mp hres0
      have hfail2 : ∀ i, (hi : i < rest.length) → (invoke rest[i] = false ↔ i = j) := by
        intro i hi
        have h1 : i + 1 < (img :: rest).length := by simp; omega
        have hstep := hfail (i + 1) h1
        rw [List.getElem_cons_succ] at hstep
        constructor
        · intro hx
          have := hstep.mp hx
          omega
        · intro hx
          exact hstep.mpr (by omega)
      have hres2 : ∀ i, (hi : i < rest.length) → i ≠ j → (resolve rest[i]).isSome = true := by
        intro i hi hne
        have h1 : i + 1 < (img :: rest).length := by simp; omega
        have := hres (i + 1) h1 (by omega)
        rwa [List.getElem_cons_succ] at this
      have ihr := ih j hk' hfail2 hres2
      rw [runBatch_cons_success invoke resolve img t rest h0 ht]
      refine ⟨by simp [ihr.1], by simp [ihr.2.1], ?_, ?_, ?_, ?_⟩
      · rw [List.getElem?_cons_succ, List.getElem_cons_succ]
        exact ihr.2.2.1
      · rw [List.countP_cons]
        simp [ihr.2.2.2.1]
      · rw [List.countP_cons]
        simp only [BatchOutcome.isSuccess_success, if_true, ihr.2.2.2.2.1,
          List.length_cons]
        omega
      · have hrep := ihr.2.2.2.2.2
        simp only [combinedReport_cons_success, List.length_cons, hrep]
        omega

/-- C8 witness: three images where the second fails invocation yield two
report sections. -/
theorem runBatch_single_failure_witness :
    (combinedReport (runBatch (fun s => !(s == "b.png"))
        (fun s => some ("T " ++ s)) ["a.png", "b.png", "c.png"])).length
      = (["a.png", "b.png", "c.png"] : List String).length - 1 :=
  (runBatch_single_failure (fun s => !(s == "b.png")) (fun s => some ("T " ++ s))
    ["a.png", "b.png", "c.png"] 1 (by decide)
    (by
      intro i hi
      have h3 : i < 3 := by simpa using hi
      interval_cases i <;>
        simp only [List.getElem_cons_zero, List.getElem_cons_succ] <;> decide)
    (by intro i hi hne; rfl)).2.2.2.2.2

end RA
